import Mathlib

/-!
Shallow embedding of the flowlynk orchestration engine (src/flowlynk.ts).

The repository carries two near-identical revisions of the engine in the same
source file.  We call the first copy (createLynk at lines 1-185) "revision A"
and the second copy (lines 186-448) "revision B".  Several spec sentences hold
for one revision only, so both are embedded side by side.

Modelling conventions:
- the OpenAI transport and the host JSON.parse are external collaborators; a
  model turn is an oracle value `ModelResp` supplying either a transport
  failure (with the thrown error's message and its JSON.stringify rendering),
  an empty completion, or the host parse outcome of the returned text
  (`Except` of the parse-error message or the parsed object);
- a parsed JSON object is represented by the fields the engine reads
  (`step`, `content`, `function`, `input`, `status`); an absent or null field
  is `none` (the engine never distinguishes null from undefined on these
  fields); JS truthiness of a string field is "present and non-empty";
- a tool invocation either returns a value or throws: `Except String StepOutput`
  with the error carrying the thrown message;
- `JSON.stringify` of a step record is modelled by a fixed total rendering
  `stringifyStep`; no engine branch inspects the rendered text;
- the run loop (`while (true)`) consumes one oracle entry per model request;
  a run that outruns the supplied script is `none` (it has not terminated
  within the observed prefix, matching the spec's unbounded-loop caveat);
- instrumentation fields (`tcs` = tool invocations performed, `ocs` = steps
  passed to the onStep observer) record events the claims quantify over; the
  engine itself never reads them.
-/

namespace Flowlynk

/-- JS object passed as a tool input, abstracted to string key/value pairs.
The engine only tests its presence, forwards it to the tool and serializes
it; it never reads the contents. -/
abbrev ToolInput := List (String × String)

inductive Role where
  | system
  | user
  | assistant
deriving DecidableEq

structure Message where
  role : Role
  content : String
deriving DecidableEq

/-- The step record (wire schema of src/types.ts StepOutput); `none` is an
absent/null field. -/
structure StepOutput where
  step : Option String
  content : Option String
  function : Option String
  input : Option ToolInput
  status : Option Bool
deriving DecidableEq

/-- A registered capability (src/types.ts Tool).  `function` returns a value
or throws (`Except.error` = thrown message). -/
structure Tool where
  function : ToolInput → Except String StepOutput
  description : String
  input : List (String × String)

/-- The tools record: property name to Tool. -/
abbrev ToolMap := List (String × Tool)

def lookupTool (ts : ToolMap) (name : String) : Option Tool :=
  (ts.find? (fun p => p.1 == name)).map (fun p => p.2)

instance {ε α : Type} [DecidableEq ε] [DecidableEq α] : DecidableEq (Except ε α) :=
  fun x y =>
    match x, y with
    | Except.error a, Except.error b =>
      if h : a = b then isTrue (by rw [h])
      else isFalse (fun hc => h (Except.error.inj hc))
    | Except.error _, Except.ok _ => isFalse (fun hc => Except.noConfusion hc)
    | Except.ok _, Except.error _ => isFalse (fun hc => Except.noConfusion hc)
    | Except.ok a, Except.ok b =>
      if h : a = b then isTrue (by rw [h])
      else isFalse (fun hc => h (Except.ok.inj hc))

/-- One model turn as seen by the engine: transport failure (message and
JSON.stringify of the thrown error), empty completion, or the host
JSON.parse outcome of the completion text. -/
inductive ModelResp where
  | transportErr (msg : String) (json : String)
  | noContent
  | content (parse : Except String StepOutput)
deriving DecidableEq

/-- JS `s || d` for strings: empty string is falsy. -/
def jsOr (s d : String) : String := if s == "" then d else s

/-- JS `x || d` for an optional string field. -/
def strOrDefault : Option String → String → String
  | none, d => d
  | some s, d => jsOr s d

/-- JS truthiness of an optional string field. -/
def truthyStr : Option String → Bool
  | none => false
  | some s => !(s == "")

/-- createErrorStep (revision A line 28) and the identical inline error
objects of revision B. -/
def createErrorStep (message : String) : StepOutput :=
  { step := some "error", content := some message, status := some false,
    function := none, input := none }

/-- createOutputStep (revision A line 37) and the identical inline output
objects of revision B (no status field). -/
def createOutputStep (content : String) : StepOutput :=
  { step := some "output", content := some content,
    function := none, input := none, status := none }

/-- The success record built by revision B's executeTool (lines 317-323). -/
def successStep (functionName : String) (input : ToolInput) : StepOutput :=
  { step := some "action",
    content := some ("Successfully executed tool " ++ functionName),
    function := some functionName, input := some input, status := some true }

/-- The error step of revision B's missing-apiKey stub (lines 206-212). -/
def keyErrStep : StepOutput := createErrorStep "API key is required"

/-- First maximal digit run of a string (the `/\d+/` match of revision A
line 65). -/
def firstDigitRunAux : List Char → Option String
  | [] => none
  | c :: cs =>
    if c.isDigit then some (String.mk (c :: cs.takeWhile Char.isDigit))
    else firstDigitRunAux cs

def firstDigitRun (s : String) : Option String := firstDigitRunAux s.data

/-- `parseInt(stringified.match(/\d+/)?.[0] || "500")` of revision A line 65. -/
def statusCodeOf (json : String) : Nat :=
  match firstDigitRun json with
  | none => 500
  | some ds => ds.toNat?.getD 500

/-- Canonical rendering standing in for JSON.stringify on a step record.
Absent fields render as null (the engine never reads the rendered text). -/
def stringifyOptStr : Option String → String
  | none => "null"
  | some s => "\"" ++ s ++ "\""

def stringifyInput (i : ToolInput) : String :=
  "\x7b" ++ String.intercalate ", "
    (i.map (fun kv => "\"" ++ kv.1 ++ "\": \"" ++ kv.2 ++ "\"")) ++ "\x7d"

def stringifyOptInput : Option ToolInput → String
  | none => "null"
  | some i => stringifyInput i

def stringifyOptBool : Option Bool → String
  | none => "null"
  | some true => "true"
  | some false => "false"

def stringifyStep (s : StepOutput) : String :=
  "\x7b\"step\": " ++ stringifyOptStr s.step ++
  ", \"content\": " ++ stringifyOptStr s.content ++
  ", \"function\": " ++ stringifyOptStr s.function ++
  ", \"input\": " ++ stringifyOptInput s.input ++
  ", \"status\": " ++ stringifyOptBool s.status ++ "\x7d"

/-- The synthetic observation message content (revision A line 153,
revision B line 393). -/
def observeMsg (toolResult : StepOutput) : String :=
  "\x7bstep: \"observe\", content: " ++ stringifyStep toolResult ++ "\x7d"

def userMsg (c : String) : Message := ⟨Role.user, c⟩

def assistantMsg (c : String) : Message := ⟨Role.assistant, c⟩

def systemMsg (c : String) : Message := ⟨Role.system, c⟩

/-- parseModelOutput of revision A (lines 76-87): code-fence stripping and
JSON.parse are the oracle's `parse` outcome; no validation at all. -/
def parseModelOutputA : Except String StepOutput → StepOutput
  | Except.error m =>
      createErrorStep ("JSON parsing error: " ++ jsOr m "Invalid response format")
  | Except.ok parsed => parsed

/-- parseModelOutput of revision B (lines 273-299): additionally rejects a
parsed object carrying truthy `function` and `input` whose `step` is not
"action". -/
def parseModelOutputB : Except String StepOutput → StepOutput
  | Except.error m =>
      createErrorStep ("JSON parsing error: " ++ jsOr m "Invalid response format")
  | Except.ok parsed =>
      if truthyStr parsed.function && parsed.input.isSome
          && !(parsed.step == some "action") then
        createErrorStep "Invalid step name: Tool/function calls must use 'action' step"
      else parsed

/-- Content of the error step produced by revision A's generateContent when
the apiKey guard throws (lines 46-48 caught at 63-73): the thrown Error has
message "API key is required" and JSON.stringify renders it as "\x7b\x7d"
(no digits), so the status code falls back to 500. -/
def apiKeyThrownContent : String :=
  "API error: API key is required, For more info visit " ++
  "https://developer.mozilla.org/en-US/docs/Web/HTTP/Reference/Status/" ++
  toString (statusCodeOf "\x7b\x7d")

/-- generateContent of revision A (lines 44-74) on one oracle turn, for a
non-empty apiKey (the apiKey throw is handled in the loop, it consumes no
turn). -/
def generateContentA : ModelResp → StepOutput
  | ModelResp.transportErr m j =>
      if m == "" then createErrorStep "API error: Unknown API error"
      else
        createErrorStep ("API error: " ++ m ++
          ", For more info visit https://developer.mozilla.org/en-US/docs/Web/HTTP/Reference/Status/"
          ++ toString (statusCodeOf j))
  | ModelResp.noContent => createErrorStep "No response content received from API"
  | ModelResp.content p => parseModelOutputA p

/-- generateContent of revision B (lines 240-271) on one oracle turn. -/
def generateContentB : ModelResp → StepOutput
  | ModelResp.transportErr m _ =>
      createErrorStep ("API error: " ++ jsOr m "Unknown API error")
  | ModelResp.noContent => createErrorStep "No response content received from API"
  | ModelResp.content p => parseModelOutputB p

/-- executeTool of revision A (lines 89-103): no try/catch, a throwing tool
propagates (`Except.error`).  The second component records the invocations
actually performed. -/
def executeToolA (tools : Option ToolMap) (functionName : String)
    (input : ToolInput) : Except String StepOutput × List (String × ToolInput) :=
  match tools with
  | none => (Except.ok (createErrorStep "No tools provided"), [])
  | some ts =>
    match lookupTool ts functionName with
    | none => (Except.ok (createErrorStep ("Tool not found: " ++ functionName)), [])
    | some t => (t.function input, [(functionName, input)])

/-- executeTool of revision B (lines 301-335): try/catch wraps everything.
Reading a property of an undefined tools record throws a host TypeError
(message approximated) which the catch converts like any tool error. -/
def executeToolB (tools : Option ToolMap) (functionName : String)
    (input : ToolInput) : StepOutput × List (String × ToolInput) :=
  match tools with
  | none =>
      (createErrorStep ("Tool execution error: " ++ functionName ++
        " failed - Cannot read properties of undefined (reading " ++
        functionName ++ ")"), [])
  | some ts =>
    match lookupTool ts functionName with
    | none => (createErrorStep ("Tool not found: " ++ functionName), [])
    | some t =>
      match t.function input with
      | Except.ok _ => (successStep functionName input, [(functionName, input)])
      | Except.error m =>
          (createErrorStep ("Tool execution error: " ++ functionName ++
            " failed - " ++ jsOr m "Unknown tool error"), [(functionName, input)])

/-- The mutable closure state of a run: transcript, step history, plus the
instrumentation lists (tool invocations performed, steps handed to the
onStep observer). -/
structure LState where
  msgs : List Message
  steps : List StepOutput
  tcs : List (String × ToolInput)
  ocs : List StepOutput
deriving DecidableEq

/-- Record an onStep invocation when an observer was supplied. -/
def obsPush (hasObs : Bool) (ocs : List StepOutput) (s : StepOutput) :
    List StepOutput :=
  if hasObs then ocs ++ [s] else ocs

/-- Outcome of one loop iteration of revision B. -/
inductive IterOut where
  | halt (result : String) (st : LState)
  | next (st : LState)
deriving DecidableEq

/-- Outcome of one loop iteration of revision A: `thrown` is an exception
escaping `run` (the promise rejects), carrying the closure state at the
throw point. -/
inductive IterOutA where
  | halt (result : String) (st : LState)
  | thrown (msg : String) (st : LState)
  | next (st : LState)
deriving DecidableEq

/-- handleError of revision A (lines 105-114): append the error step as an
assistant message, then a terminal output step. -/
def handleErrorA (e : StepOutput) (st : LState) : String × LState :=
  let c := strOrDefault e.content "An error occurred"
  (c, { st with msgs := st.msgs ++ [assistantMsg (stringifyStep e)],
                steps := st.steps ++ [createOutputStep c] })

/-- Revision A, invalid action branch (lines 139-145): error step pushed,
then handleError. -/
def invalidActionA (st : LState) : IterOutA :=
  let e := createErrorStep "Invalid action step: Missing function or input fields"
  let st1 := { st with steps := st.steps ++ [e] }
  let r := handleErrorA e st1
  IterOutA.halt r.1 r.2

/-- Revision B, invalid action branch (lines 397-418): error step pushed and
echoed as an assistant message, then a terminal output step. -/
def invalidActionB (st : LState) : IterOut :=
  let m := "Invalid action step: Missing function or input fields"
  let e := createErrorStep m
  IterOut.halt m
    { st with steps := st.steps ++ [e, createOutputStep m],
              msgs := st.msgs ++ [assistantMsg (stringifyStep e)] }

/-- One iteration of revision A's run loop (lines 123-169), for a non-empty
apiKey, acting on the parsed step `p` of one consumed model turn. -/
def iterBodyA (tools : Option ToolMap) (hasObs : Bool) (p : StepOutput)
    (st : LState) : IterOutA :=
  let st1 : LState := { st with steps := st.steps ++ [p],
                                ocs := obsPush hasObs st.ocs p }
  if p.step == some "error" then
    let r := handleErrorA p st1
    IterOutA.halt r.1 r.2
  else
    let st2 : LState :=
      { st1 with msgs := st1.msgs ++ [assistantMsg (stringifyStep p)] }
    match p.step with
    | some "action" =>
      match p.function, p.input with
      | some fn, some inp =>
        if fn == "" then invalidActionA st2
        else
          match executeToolA tools fn inp with
          | (Except.error m, tc) =>
              IterOutA.thrown m { st2 with tcs := st2.tcs ++ tc }
          | (Except.ok tr, tc) =>
              IterOutA.next
                { st2 with msgs := st2.msgs ++ [userMsg (observeMsg tr)],
                           tcs := st2.tcs ++ tc }
      | _, _ => invalidActionA st2
    | some "output" =>
        IterOutA.halt (strOrDefault p.content "No response provided") st2
    | _ =>
        IterOutA.next
          { st2 with msgs := st2.msgs ++ [userMsg "Proceed with the next step"] }

/-- One iteration of revision A's loop on one consumed model turn. -/
def iterA (tools : Option ToolMap) (hasObs : Bool) (r : ModelResp)
    (st : LState) : IterOutA :=
  iterBodyA tools hasObs (generateContentA r) st

/-- One iteration of revision B's run loop (lines 344-436), acting on the
parsed step `p` of one consumed model turn. -/
def iterBodyB (tools : Option ToolMap) (hasObs : Bool) (p : StepOutput)
    (st : LState) : IterOut :=
  let st1 : LState := { st with steps := st.steps ++ [p],
                                ocs := obsPush hasObs st.ocs p }
  if p.step == some "error" then
    let c := strOrDefault p.content "An error occurred"
    IterOut.halt c
      { st1 with msgs := st1.msgs ++ [assistantMsg (stringifyStep p)],
                 steps := st1.steps ++ [createOutputStep c] }
  else
    let st2 : LState :=
      { st1 with msgs := st1.msgs ++ [assistantMsg (stringifyStep p)] }
    match p.step with
    | some "action" =>
      match p.function, p.input with
      | some fn, some inp =>
        if fn == "" then invalidActionB st2
        else
          match executeToolB tools fn inp with
          | (tr, tc) =>
            let st3 : LState :=
              { st2 with steps := st2.steps ++ [tr], tcs := st2.tcs ++ tc }
            if tr.step == some "error" then
              let c := strOrDefault tr.content "Tool execution failed"
              IterOut.halt c
                { st3 with msgs := st3.msgs ++ [assistantMsg (stringifyStep tr)],
                           steps := st3.steps ++ [createOutputStep c] }
            else
              IterOut.next
                { st3 with msgs := st3.msgs ++ [userMsg (observeMsg tr)] }
      | _, _ => invalidActionB st2
    | some "demand" =>
        let c := strOrDefault p.content "Tool required but not available"
        IterOut.halt c { st2 with steps := st2.steps ++ [createOutputStep c] }
    | some "output" =>
        IterOut.halt (strOrDefault p.content "No response provided") st2
    | _ =>
        IterOut.next
          { st2 with msgs := st2.msgs ++ [userMsg "proceed with next step"] }

/-- One iteration of revision B's loop on one consumed model turn. -/
def iterB (tools : Option ToolMap) (hasObs : Bool) (r : ModelResp)
    (st : LState) : IterOut :=
  iterBodyB tools hasObs (generateContentB r) st

/-- A completed revision B run: final result, closure state, unconsumed
model turns (model requests issued = script length minus remaining). -/
structure DoneB where
  result : String
  st : LState
  remaining : List ModelResp
deriving DecidableEq

/-- Outcome of a revision A run: resolved, or rejected with a thrown
message (state at the throw point kept for inspection). -/
inductive OutcomeA where
  | done (result : String) (st : LState) (remaining : List ModelResp)
  | thrown (msg : String) (st : LState) (remaining : List ModelResp)
deriving DecidableEq

/-- Revision A, apiKey guard firing inside generateContent (lines 46-48):
the caught throw becomes an error step without consuming a model turn, and
the loop terminates through handleError. -/
def apiKeyHalt (hasObs : Bool) (st : LState) (remaining : List ModelResp) :
    OutcomeA :=
  let p := createErrorStep apiKeyThrownContent
  let st1 : LState := { st with steps := st.steps ++ [p],
                                ocs := obsPush hasObs st.ocs p }
  let r := handleErrorA p st1
  OutcomeA.done r.1 r.2 remaining

/-- Revision A's `while (true)` loop (lines 123-169), one oracle turn per
iteration; `none` = the run outruns the supplied script. -/
def runLoopA (apiKey : String) (tools : Option ToolMap) (hasObs : Bool) :
    List ModelResp → LState → Option OutcomeA
  | [], st =>
    if apiKey == "" then some (apiKeyHalt hasObs st []) else none
  | r :: rest, st =>
    if apiKey == "" then some (apiKeyHalt hasObs st (r :: rest))
    else
      match iterA tools hasObs r st with
      | IterOutA.halt res st' => some (OutcomeA.done res st' rest)
      | IterOutA.thrown m st' => some (OutcomeA.thrown m st' rest)
      | IterOutA.next st' => runLoopA apiKey tools hasObs rest st'

/-- Revision B's `while (true)` loop (lines 344-436). -/
def runLoopB (tools : Option ToolMap) (hasObs : Bool) :
    List ModelResp → LState → Option DoneB
  | [], _ => none
  | r :: rest, st =>
    match iterB tools hasObs r st with
    | IterOut.halt res st' => some (DoneB.mk res st' rest)
    | IterOut.next st' => runLoopB tools hasObs rest st'

/-- A session's persistent closure state: transcript and last step history. -/
structure Sess where
  messages : List Message
  steps : List StepOutput
deriving DecidableEq

/-- Construction-time seeding (revision A lines 21-25, revision B 234-238):
one system message followed by the configured history. -/
def initSess (sysMsg : String) (history : List Message) : Sess :=
  ⟨systemMsg sysMsg :: history, []⟩

/-- reset (revision A lines 172-175, revision B 439-442). -/
def resetSess (sysMsg : String) (_ : Sess) : Sess :=
  ⟨[systemMsg sysMsg], []⟩

/-- getSteps (revision A line 180, revision B line 444). -/
def getSteps (s : Sess) : List StepOutput := s.steps

/-- messageLogs (revision A line 181, revision B line 445):
`messages.slice(1)`. -/
def messageLogs (s : Sess) : List Message := s.messages.drop 1

/-- run of revision A (lines 116-170): clear the step history, append the
user query, loop. -/
def runA (apiKey : String) (tools : Option ToolMap) (hasObs : Bool)
    (query : String) (script : List ModelResp) (s : Sess) : Option OutcomeA :=
  runLoopA apiKey tools hasObs script ⟨s.messages ++ [userMsg query], [], [], []⟩

/-- The session after a resolved revision A run. -/
def sessOfDoneA : OutcomeA → Sess
  | OutcomeA.done _ st _ => ⟨st.msgs, st.steps⟩
  | OutcomeA.thrown _ st _ => ⟨st.msgs, st.steps⟩

/-- A revision B handle: the missing-apiKey stub (lines 201-227) or a real
session. -/
inductive LynkB where
  | stub
  | real (sess : Sess)
deriving DecidableEq

/-- createLynk of revision B (lines 191-232): empty apiKey returns the stub. -/
def createLynkB (apiKey sysMsg : String) (history : List Message) : LynkB :=
  if apiKey == "" then LynkB.stub else LynkB.real (initSess sysMsg history)

/-- run of revision B (lines 203-214 for the stub, 337-437 otherwise).  The
stub resolves at once with a fixed pair, touching no transcript and
consuming no model turn. -/
def runLynkB (tools : Option ToolMap) (hasObs : Bool) (query : String)
    (script : List ModelResp) : LynkB → Option (DoneB × LynkB)
  | LynkB.stub =>
      some (DoneB.mk "API key is required" ⟨[], [keyErrStep], [], []⟩ script,
        LynkB.stub)
  | LynkB.real s =>
    match runLoopB tools hasObs script
        ⟨s.messages ++ [userMsg query], [], [], []⟩ with
    | none => none
    | some d => some (d, LynkB.real ⟨d.st.msgs, d.st.steps⟩)

/-- getSteps of revision B (line 216 for the stub, 444 otherwise). -/
def getStepsB : LynkB → List StepOutput
  | LynkB.stub => [keyErrStep]
  | LynkB.real s => getSteps s

/-- messageLogs of revision B (line 225 for the stub, 445 otherwise). -/
def messageLogsB : LynkB → List Message
  | LynkB.stub => []
  | LynkB.real s => messageLogs s

/-- reset of revision B (line 215 for the stub: a no-op; 439-442 otherwise). -/
def resetLynkB (sysMsg : String) : LynkB → LynkB
  | LynkB.stub => LynkB.stub
  | LynkB.real s => LynkB.real (resetSess sysMsg s)

/-- The transcript a revision B handle owns (the stub owns none). -/
def transcriptB : LynkB → List Message
  | LynkB.stub => []
  | LynkB.real s => s.messages

/-- Result of a revision A run, when it resolved. -/
def resultOfA : Option OutcomeA → Option String
  | some (OutcomeA.done r _ _) => some r
  | _ => none

/-- Thrown message of a revision A run, when it rejected. -/
def thrownOfA : Option OutcomeA → Option String
  | some (OutcomeA.thrown m _ _) => some m
  | _ => none

def stOfA : Option OutcomeA → Option LState
  | some (OutcomeA.done _ st _) => some st
  | some (OutcomeA.thrown _ st _) => some st
  | none => none

def remainingOfA : Option OutcomeA → Option (List ModelResp)
  | some (OutcomeA.done _ _ rem) => some rem
  | some (OutcomeA.thrown _ _ rem) => some rem
  | none => none

def resultOfB : Option DoneB → Option String
  | some d => some d.result
  | none => none

def stOfB : Option DoneB → Option LState
  | some d => some d.st
  | none => none

def remainingOfB : Option DoneB → Option (List ModelResp)
  | some d => some d.remaining
  | none => none

/-- Concrete fixtures for witnesses and counterexamples. -/
def sampleInput : ToolInput := [("q", "x")]

def okTool : Tool :=
  ⟨fun _ => Except.ok (createOutputStep "ok"), "always succeeds", []⟩

def okTool2 : Tool :=
  ⟨fun _ => Except.ok (createOutputStep "a different payload"), "always succeeds too", []⟩

def boomTool : Tool :=
  ⟨fun _ => Except.error "kaboom", "always throws", []⟩

/-- A well-formed action step as parsed from a model turn. -/
def actionStep (fn : String) (inp : ToolInput) : StepOutput :=
  ⟨some "action", some "use the tool", some fn, some inp, none⟩

def actionResp (fn : String) (inp : ToolInput) : ModelResp :=
  ModelResp.content (Except.ok (actionStep fn inp))

def outputResp (c : String) : ModelResp :=
  ModelResp.content (Except.ok ⟨some "output", some c, none, none, none⟩)

def demandResp (c : String) : ModelResp :=
  ModelResp.content (Except.ok ⟨some "demand", some c, none, none, none⟩)

/-! Generic lemmas about one loop iteration and the whole loop. -/

def stOfIter : IterOut → LState
  | IterOut.halt _ st => st
  | IterOut.next st => st

def stOfIterA : IterOutA → LState
  | IterOutA.halt _ st => st
  | IterOutA.thrown _ st => st
  | IterOutA.next st => st

def stOfOutA : OutcomeA → LState
  | OutcomeA.done _ st _ => st
  | OutcomeA.thrown _ st _ => st

/-- Revision B handles reachable through the public API: construction, any
number of completed runs, and resets. -/
inductive ReachesLynkB (sysMsg : String) (tools : Option ToolMap) : LynkB → Prop
  | init (apiKey : String) (history : List Message) :
      ReachesLynkB sysMsg tools (createLynkB apiKey sysMsg history)
  | runStep (l l' : LynkB) (hasObs : Bool) (q : String)
      (script : List ModelResp) (d : DoneB) :
      ReachesLynkB sysMsg tools l →
      runLynkB tools hasObs q script l = some (d, l') →
      ReachesLynkB sysMsg tools l'
  | resetStep (l : LynkB) :
      ReachesLynkB sysMsg tools l →
      ReachesLynkB sysMsg tools (resetLynkB sysMsg l)

/-- Revision A sessions reachable through the public API: construction, any
number of completed (resolved) runs, and resets. -/
inductive ReachesA (apiKey sysMsg : String) (tools : Option ToolMap) : Sess → Prop
  | init (history : List Message) :
      ReachesA apiKey sysMsg tools (initSess sysMsg history)
  | runStep (s : Sess) (hasObs : Bool) (q : String) (script : List ModelResp)
      (res : String) (st : LState) (rem : List ModelResp) :
      ReachesA apiKey sysMsg tools s →
      runA apiKey tools hasObs q script s = some (OutcomeA.done res st rem) →
      ReachesA apiKey sysMsg tools ⟨st.msgs, st.steps⟩
  | resetStep (s : Sess) :
      ReachesA apiKey sysMsg tools s →
      ReachesA apiKey sysMsg tools (resetSess sysMsg s)

/-- Invariant: a real revision B session's transcript starts with the seeded
system message (the stub owns no transcript). -/
def lynkInv (sysMsg : String) : LynkB → Prop
  | LynkB.stub => True
  | LynkB.real s => s.messages.head? = some (systemMsg sysMsg)

theorem iterBodyB_ocs (tools : Option ToolMap) (hasObs : Bool) (p : StepOutput)
    (st : LState) :
    (stOfIter (iterBodyB tools hasObs p st)).ocs = obsPush hasObs st.ocs p := by
  simp only [iterBodyB, invalidActionB]
  repeat' split
  all_goals rfl

theorem iterB_ocs (tools : Option ToolMap) (hasObs : Bool) (r : ModelResp)
    (st : LState) :
    (stOfIter (iterB tools hasObs r st)).ocs =
      obsPush hasObs st.ocs (generateContentB r) := by
  simp only [iterB]
  exact iterBodyB_ocs tools hasObs (generateContentB r) st

theorem iterBodyB_msgs (tools : Option ToolMap) (hasObs : Bool) (p : StepOutput)
    (st : LState) :
    ∃ suf, (stOfIter (iterBodyB tools hasObs p st)).msgs = st.msgs ++ suf := by
  simp only [iterBodyB, invalidActionB]
  repeat' split
  all_goals simp only [stOfIter, List.append_assoc]
  all_goals exact ⟨_, rfl⟩

theorem iterB_msgs (tools : Option ToolMap) (hasObs : Bool) (r : ModelResp)
    (st : LState) :
    ∃ suf, (stOfIter (iterB tools hasObs r st)).msgs = st.msgs ++ suf := by
  simp only [iterB]
  exact iterBodyB_msgs tools hasObs (generateContentB r) st

theorem iterBodyA_msgs (tools : Option ToolMap) (hasObs : Bool) (p : StepOutput)
    (st : LState) :
    ∃ suf, (stOfIterA (iterBodyA tools hasObs p st)).msgs = st.msgs ++ suf := by
  simp only [iterBodyA, invalidActionA, handleErrorA]
  repeat' split
  all_goals simp only [stOfIterA, List.append_assoc]
  all_goals exact ⟨_, rfl⟩

theorem iterA_msgs (tools : Option ToolMap) (hasObs : Bool) (r : ModelResp)
    (st : LState) :
    ∃ suf, (stOfIterA (iterA tools hasObs r st)).msgs = st.msgs ++ suf := by
  simp only [iterA]
  exact iterBodyA_msgs tools hasObs (generateContentA r) st

/-- Every completed revision B run only appends to the transcript it was
started with. -/
theorem runLoopB_msgs (tools : Option ToolMap) (hasObs : Bool) :
    ∀ (script : List ModelResp) (st : LState) (d : DoneB),
      runLoopB tools hasObs script st = some d →
      ∃ suf, d.st.msgs = st.msgs ++ suf := by
  intro script
  induction script with
  | nil => intro st d h; simp [runLoopB] at h
  | cons r rest ih =>
    intro st d h
    simp only [runLoopB] at h
    cases hIter : iterB tools hasObs r st with
    | halt res st' =>
      rw [hIter] at h
      simp only [Option.some.injEq] at h
      subst h
      have hm := iterB_msgs tools hasObs r st
      rw [hIter] at hm
      simpa [stOfIter] using hm
    | next st' =>
      rw [hIter] at h
      obtain ⟨suf2, h2⟩ := ih st' d h
      have hm := iterB_msgs tools hasObs r st
      rw [hIter] at hm
      simp only [stOfIter] at hm
      obtain ⟨suf1, h1⟩ := hm
      exact ⟨suf1 ++ suf2, by rw [h2, h1, List.append_assoc]⟩

/-- Every completed revision A run only appends to the transcript it was
started with. -/
theorem runLoopA_msgs (apiKey : String) (tools : Option ToolMap) (hasObs : Bool) :
    ∀ (script : List ModelResp) (st : LState) (o : OutcomeA),
      runLoopA apiKey tools hasObs script st = some o →
      ∃ suf, (stOfOutA o).msgs = st.msgs ++ suf := by
  intro script
  induction script with
  | nil =>
    intro st o h
    simp only [runLoopA] at h
    by_cases hk : (apiKey == "") = true
    · rw [if_pos hk] at h
      simp only [Option.some.injEq] at h
      subst h
      simp only [apiKeyHalt, handleErrorA, stOfOutA, List.append_assoc]
      exact ⟨_, rfl⟩
    · rw [if_neg hk] at h
      exact absurd h (by simp)
  | cons r rest ih =>
    intro st o h
    simp only [runLoopA] at h
    by_cases hk : (apiKey == "") = true
    · rw [if_pos hk] at h
      simp only [Option.some.injEq] at h
      subst h
      simp only [apiKeyHalt, handleErrorA, stOfOutA, List.append_assoc]
      exact ⟨_, rfl⟩
    · rw [if_neg hk] at h
      cases hIter : iterA tools hasObs r st with
      | halt res st' =>
        rw [hIter] at h
        simp only [Option.some.injEq] at h
        subst h
        have hm := iterA_msgs tools hasObs r st
        rw [hIter] at hm
        simpa [stOfIterA, stOfOutA] using hm
      | thrown m st' =>
        rw [hIter] at h
        simp only [Option.some.injEq] at h
        subst h
        have hm := iterA_msgs tools hasObs r st
        rw [hIter] at hm
        simpa [stOfIterA, stOfOutA] using hm
      | next st' =>
        rw [hIter] at h
        obtain ⟨suf2, h2⟩ := ih st' o h
        have hm := iterA_msgs tools hasObs r st
        rw [hIter] at hm
        simp only [stOfIterA] at hm
        obtain ⟨suf1, h1⟩ := hm
        exact ⟨suf1 ++ suf2, by rw [h2, h1, List.append_assoc]⟩

/-- With an observer supplied, each consumed model turn contributes exactly
one observer invocation, in order, carrying the parsed step. -/
theorem runLoopB_obs (tools : Option ToolMap) :
    ∀ (script : List ModelResp) (st : LState) (d : DoneB),
      runLoopB tools true script st = some d →
      ∃ k, d.remaining = script.drop k ∧
        d.st.ocs = st.ocs ++ (script.take k).map generateContentB := by
  intro script
  induction script with
  | nil => intro st d h; simp [runLoopB] at h
  | cons r rest ih =>
    intro st d h
    simp only [runLoopB] at h
    cases hIter : iterB tools true r st with
    | halt res st' =>
      rw [hIter] at h
      simp only [Option.some.injEq] at h
      subst h
      have ho := iterB_ocs tools true r st
      rw [hIter] at ho
      simp only [stOfIter, obsPush, if_pos] at ho
      exact ⟨1, rfl, by simpa using ho⟩
    | next st' =>
      rw [hIter] at h
      obtain ⟨k, hrem, hocs⟩ := ih st' d h
      have ho := iterB_ocs tools true r st
      rw [hIter] at ho
      simp only [stOfIter, obsPush, if_pos] at ho
      refine ⟨k + 1, by simpa using hrem, ?_⟩
      simp [hocs, ho, List.append_assoc]

theorem lynkBInv (sysMsg : String) (tools : Option ToolMap) :
    ∀ l, ReachesLynkB sysMsg tools l → lynkInv sysMsg l := by
  intro l h
  induction h with
  | init apiKey history =>
    simp only [createLynkB]
    by_cases hk : (apiKey == "") = true
    · rw [if_pos hk]; trivial
    · rw [if_neg hk]; simp [lynkInv, initSess]
  | runStep l l' hasObs q script d hr hrun ih =>
    cases l with
    | stub =>
      simp only [runLynkB, Option.some.injEq, Prod.mk.injEq] at hrun
      rw [← hrun.2]
      trivial
    | real s =>
      simp only [runLynkB] at hrun
      cases hLoop : runLoopB tools hasObs script
          ⟨s.messages ++ [userMsg q], [], [], []⟩ with
      | none => rw [hLoop] at hrun; exact absurd hrun (by simp)
      | some dd =>
        rw [hLoop] at hrun
        simp only [Option.some.injEq, Prod.mk.injEq] at hrun
        rw [← hrun.2]
        obtain ⟨suf, hm⟩ := runLoopB_msgs tools hasObs script _ dd hLoop
        have hs : s.messages.head? = some (systemMsg sysMsg) := ih
        obtain ⟨t, ht⟩ : ∃ t, s.messages = systemMsg sysMsg :: t := by
          cases hsm : s.messages with
          | nil => rw [hsm] at hs; exact absurd hs (by simp)
          | cons a t =>
            rw [hsm] at hs
            simp only [List.head?_cons, Option.some.injEq] at hs
            exact ⟨t, by rw [hs]⟩
        show (⟨dd.st.msgs, dd.st.steps⟩ : Sess).messages.head? = _
        rw [hm, ht]
        rfl
  | resetStep l hr ih =>
    cases l with
    | stub => trivial
    | real s => simp [resetLynkB, lynkInv, resetSess]

theorem reachesA_head (apiKey sysMsg : String) (tools : Option ToolMap) :
    ∀ s, ReachesA apiKey sysMsg tools s →
      s.messages.head? = some (systemMsg sysMsg) := by
  intro s h
  induction h with
  | init history => rfl
  | runStep s hasObs q script res st rem hr hrun ih =>
    have hmsgs := runLoopA_msgs apiKey tools hasObs script
      ⟨s.messages ++ [userMsg q], [], [], []⟩ (OutcomeA.done res st rem) hrun
    obtain ⟨suf, hm⟩ := hmsgs
    obtain ⟨t, ht⟩ : ∃ t, s.messages = systemMsg sysMsg :: t := by
      cases hsm : s.messages with
      | nil => rw [hsm] at ih; exact absurd ih (by simp)
      | cons a t =>
        rw [hsm] at ih
        simp only [List.head?_cons, Option.some.injEq] at ih
        exact ⟨t, by rw [ih]⟩
    show (⟨st.msgs, st.steps⟩ : Sess).messages.head? = _
    simp only [stOfOutA] at hm
    rw [hm, ht]
    rfl
  | resetStep s hr ih => rfl

/-! Helper lemmas shared by the claim theorems. -/

theorem parseB_pass_of_fn_none (p : StepOutput) (h : p.function = none) :
    parseModelOutputB (Except.ok p) = p := by
  simp [parseModelOutputB, truthyStr, h]

theorem parseB_pass_of_input_none (p : StepOutput) (h : p.input = none) :
    parseModelOutputB (Except.ok p) = p := by
  simp [parseModelOutputB, h]

theorem parseB_pass_of_action (p : StepOutput) (h : p.step = some "action") :
    parseModelOutputB (Except.ok p) = p := by
  simp [parseModelOutputB, h]

theorem jsOr_of_ne (s d : String) (h : ¬ s = "") : jsOr s d = s := by
  unfold jsOr
  rw [if_neg (fun hc => h (eq_of_beq hc))]

theorem append_ne_empty_left (a b : String) (h : ¬ a = "") : ¬ a ++ b = "" := by
  intro hc
  apply h
  have hd := congrArg String.data hc
  rw [String.data_append] at hd
  have h2 := List.append_eq_nil.mp hd
  cases a with
  | mk da => cases b with
    | mk db => cases h2.1; rfl

/-! Claim theorems. -/

/-- C1 (corrected): with an empty/missing apiKey, revision B's createLynk
returns the stub, whose run resolves at once with result exactly
"API key is required" and exactly one error step, consuming no model turn
and owning no transcript.  In revision A, however, the run resolves with
the caught-throw diagnostic "API error: API key is required, For more info
visit .../500", pushes two steps (error + output), and the user query and
an assistant message are appended to the transcript. -/
theorem missing_api_key_behavior (sysMsg : String) (history : List Message)
    (tools : Option ToolMap) (hasObs : Bool) (q : String)
    (script : List ModelResp) :
    createLynkB "" sysMsg history = LynkB.stub ∧
    runLynkB tools hasObs q script LynkB.stub =
      some (DoneB.mk "API key is required" ⟨[], [keyErrStep], [], []⟩ script,
        LynkB.stub) ∧
    (∀ s : Sess, runA "" tools hasObs q script s =
      some (OutcomeA.done apiKeyThrownContent
        ⟨s.messages ++ [userMsg q] ++
            [assistantMsg (stringifyStep (createErrorStep apiKeyThrownContent))],
          [createErrorStep apiKeyThrownContent,
            createOutputStep apiKeyThrownContent],
          [], obsPush hasObs [] (createErrorStep apiKeyThrownContent)⟩ script)) := by
  refine ⟨rfl, rfl, fun s => ?_⟩
  cases script with
  | nil => rfl
  | cons r rest => rfl

/-- C1 counterexample: a concrete revision A session with empty apiKey
resolves with a result different from "API key is required", two steps
instead of one, and a transcript containing the user message. -/
theorem missing_api_key_revA_counterexample :
    resultOfA (runA "" none false "hi" [] (initSess "S" [])) =
      some apiKeyThrownContent ∧
    some apiKeyThrownContent ≠ some "API key is required" ∧
    (stOfA (runA "" none false "hi" [] (initSess "S" []))).map
        (fun st => st.steps.length) = some 2 ∧
    (stOfA (runA "" none false "hi" [] (initSess "S" []))).map
        (fun st => st.msgs.take 2) = some [systemMsg "S", userMsg "hi"] :=
  ⟨rfl, by decide, rfl, rfl⟩

/-- C4 (corrected, amended part): revision B's parser synthesizes the
protocol-violation error step when the parsed value carries truthy
`function` and present `input` while its `step` is not "action"; but a
parsed value missing `function` or `input` is returned unchanged even when
it has no `step` field, and revision A's parser returns every parsed value
unchanged. -/
theorem parse_validation_characterization (p : StepOutput) :
    (truthyStr p.function = true → p.input.isSome = true →
      p.step ≠ some "action" →
      parseModelOutputB (Except.ok p) =
        createErrorStep "Invalid step name: Tool/function calls must use 'action' step") ∧
    (p.function = none → parseModelOutputB (Except.ok p) = p) ∧
    (p.input = none → parseModelOutputB (Except.ok p) = p) ∧
    parseModelOutputA (Except.ok p) = p := by
  refine ⟨?_, parseB_pass_of_fn_none p, parseB_pass_of_input_none p, rfl⟩
  intro h1 h2 h3
  have h3' : (p.step == some "action") = false := beq_eq_false_iff_ne.mpr h3
  simp [parseModelOutputB, h1, h2, h3']

/-- C4 witness: a concrete non-action step carrying function and input is
rejected by revision B's parser. -/
theorem parse_validation_characterization_witness :
    truthyStr (StepOutput.mk (some "initiate") (some "c") (some "t")
        (some sampleInput) none).function = true ∧
    (StepOutput.mk (some "initiate") (some "c") (some "t")
        (some sampleInput) none).input.isSome = true ∧
    (StepOutput.mk (some "initiate") (some "c") (some "t")
        (some sampleInput) none).step ≠ some "action" ∧
    parseModelOutputB (Except.ok (StepOutput.mk (some "initiate") (some "c")
        (some "t") (some sampleInput) none)) =
      createErrorStep "Invalid step name: Tool/function calls must use 'action' step" :=
  ⟨by decide, by decide, by decide,
    (parse_validation_characterization _).1 (by decide) (by decide) (by decide)⟩

/-- C4 counterexample: a parsed value with no `step` field is returned
unchanged by revision B's parser, not replaced by a synthesized error
step. -/
theorem missing_step_field_not_rejected :
    parseModelOutputB (Except.ok ⟨none, some "hi", none, none, none⟩) =
      ⟨none, some "hi", none, none, none⟩ ∧
    (parseModelOutputB (Except.ok ⟨none, some "hi", none, none, none⟩)).step ≠
      some "error" ∧
    parseModelOutputB (Except.ok ⟨none, some "hi", none, none, none⟩) ≠
      createErrorStep "Invalid step name: Tool/function calls must use 'action' step" :=
  ⟨rfl, by decide, by decide⟩

/-- C8 (corrected): reset on a real session (both revisions share this
code) empties the step history and reseeds the transcript with exactly one
fresh system message; but revision B's missing-apiKey stub has a no-op
reset and its getSteps permanently returns the single error step. -/
theorem reset_clears_state (sysMsg : String) :
    (∀ s : Sess, getSteps (resetSess sysMsg s) = [] ∧
      (resetSess sysMsg s).messages = [systemMsg sysMsg]) ∧
    (∀ s : Sess, resetLynkB sysMsg (LynkB.real s) = LynkB.real (resetSess sysMsg s)) ∧
    resetLynkB sysMsg LynkB.stub = LynkB.stub ∧
    getStepsB LynkB.stub = [keyErrStep] :=
  ⟨fun _ => ⟨rfl, rfl⟩, fun _ => rfl, rfl, rfl⟩

/-- C8 counterexample: on the revision B stub, a run completes, yet reset
leaves getSteps returning the error step rather than the empty sequence. -/
theorem stub_reset_noop :
    runLynkB none false "hi" [] (createLynkB "" "S" []) =
      some (DoneB.mk "API key is required" ⟨[], [keyErrStep], [], []⟩ [],
        LynkB.stub) ∧
    getStepsB (resetLynkB "S" LynkB.stub) = [keyErrStep] ∧
    getStepsB (resetLynkB "S" LynkB.stub) ≠ [] :=
  ⟨rfl, rfl, by decide⟩

/-- C9 (confirmed): for every reachable session of either revision, the
transcript either does not exist (revision B stub) or starts with the
seeded system message, and messageLogs is exactly the transcript without
that first entry — the system message never appears in a snapshot. -/
theorem system_message_never_in_logs (sysMsg : String) (tools : Option ToolMap) :
    (∀ l, ReachesLynkB sysMsg tools l →
      transcriptB l = [] ∨
      transcriptB l = systemMsg sysMsg :: messageLogsB l) ∧
    (∀ apiKey s, ReachesA apiKey sysMsg tools s →
      s.messages = systemMsg sysMsg :: messageLogs s) := by
  constructor
  · intro l h
    have hi := lynkBInv sysMsg tools l h
    cases l with
    | stub => exact Or.inl rfl
    | real s =>
      right
      have hh : s.messages.head? = some (systemMsg sysMsg) := hi
      cases hsm : s.messages with
      | nil => rw [hsm] at hh; exact absurd hh (by simp)
      | cons a t =>
        rw [hsm] at hh
        simp only [List.head?_cons, Option.some.injEq] at hh
        show s.messages = systemMsg sysMsg :: messageLogs s
        simp only [messageLogs, hsm, List.drop_one, List.tail_cons]
        rw [hh]
  · intro apiKey s h
    have hh := reachesA_head apiKey sysMsg tools s h
    cases hsm : s.messages with
    | nil => rw [hsm] at hh; exact absurd hh (by simp)
    | cons a t =>
      rw [hsm] at hh
      simp only [List.head?_cons, Option.some.injEq] at hh
      simp only [messageLogs, hsm, List.drop_one, List.tail_cons]
      rw [hh]

/-- C9 witness: the invariant instantiated at a freshly constructed handle
of each revision. -/
theorem system_message_never_in_logs_witness :
    (transcriptB (createLynkB "k" "S" []) = [] ∨
      transcriptB (createLynkB "k" "S" []) =
        systemMsg "S" :: messageLogsB (createLynkB "k" "S" [])) ∧
    (initSess "S" [userMsg "h"]).messages =
      systemMsg "S" :: messageLogs (initSess "S" [userMsg "h"]) :=
  ⟨(system_message_never_in_logs "S" none).1 _ (ReachesLynkB.init "k" []),
   (system_message_never_in_logs "S" none).2 "k" _ (ReachesA.init [userMsg "h"])⟩

/-- C5 (confirmed): in both revisions, a parsed action step whose function
or input is absent terminates the run at once with the protocol-violation
diagnostic as result, invokes no tool (the invocation list is unchanged)
and issues no further model request (the remaining script is untouched). -/
theorem invalid_action_terminates (tools : Option ToolMap) (hasObs : Bool)
    (apiKey : String) (d : StepOutput) (rest : List ModelResp) (st : LState)
    (hstep : d.step = some "action") (habs : d.function = none ∨ d.input = none)
    (hk : (apiKey == "") = false) :
    runLoopB tools hasObs (ModelResp.content (Except.ok d) :: rest) st =
      some (DoneB.mk "Invalid action step: Missing function or input fields"
        ⟨st.msgs ++ [assistantMsg (stringifyStep d)] ++
            [assistantMsg (stringifyStep (createErrorStep
              "Invalid action step: Missing function or input fields"))],
          st.steps ++ [d] ++
            [createErrorStep "Invalid action step: Missing function or input fields",
              createOutputStep "Invalid action step: Missing function or input fields"],
          st.tcs, obsPush hasObs st.ocs d⟩ rest) ∧
    runLoopA apiKey tools hasObs (ModelResp.content (Except.ok d) :: rest) st =
      some (OutcomeA.done "Invalid action step: Missing function or input fields"
        ⟨st.msgs ++ [assistantMsg (stringifyStep d)] ++
            [assistantMsg (stringifyStep (createErrorStep
              "Invalid action step: Missing function or input fields"))],
          st.steps ++ [d] ++
            [createErrorStep "Invalid action step: Missing function or input fields"] ++
            [createOutputStep "Invalid action step: Missing function or input fields"],
          st.tcs, obsPush hasObs st.ocs d⟩ rest) := by
  have hknot : ¬((apiKey == "") = true) := by rw [hk]; decide
  obtain ⟨s0, c0, f0, i0, b0⟩ := d
  have hs0 : s0 = some "action" := hstep
  subst hs0
  rcases habs with hf | hi
  · have hf0 : f0 = none := hf
    subst hf0
    refine ⟨rfl, ?_⟩
    simp only [runLoopA]
    rw [if_neg hknot]
    rfl
  · have hi0 : i0 = none := hi
    subst hi0
    cases f0 with
    | none =>
      refine ⟨rfl, ?_⟩
      simp only [runLoopA]
      rw [if_neg hknot]
      rfl
    | some fn =>
      have hpass := parseB_pass_of_input_none
        (⟨some "action", c0, some fn, none, b0⟩ : StepOutput) rfl
      constructor
      · simp only [runLoopB, iterB, generateContentB, hpass]
        rfl
      · simp only [runLoopA]
        rw [if_neg hknot]
        rfl

/-- C5 witness: the theorem at a concrete action step missing both fields. -/
theorem invalid_action_terminates_witness :
    (StepOutput.mk (some "action") (some "c") none none none).step =
      some "action" ∧
    ((StepOutput.mk (some "action") (some "c") none none none).function = none ∨
      (StepOutput.mk (some "action") (some "c") none none none).input = none) ∧
    (("k" == "") = false) ∧
    (runLoopB none false
        [ModelResp.content (Except.ok
          (StepOutput.mk (some "action") (some "c") none none none))]
        ⟨[], [], [], []⟩ =
      some (DoneB.mk "Invalid action step: Missing function or input fields"
        ⟨[assistantMsg (stringifyStep
            (StepOutput.mk (some "action") (some "c") none none none)),
          assistantMsg (stringifyStep (createErrorStep
            "Invalid action step: Missing function or input fields"))],
          [StepOutput.mk (some "action") (some "c") none none none,
            createErrorStep "Invalid action step: Missing function or input fields",
            createOutputStep "Invalid action step: Missing function or input fields"],
          [], []⟩ []) ∧
    runLoopA "k" none false
        [ModelResp.content (Except.ok
          (StepOutput.mk (some "action") (some "c") none none none))]
        ⟨[], [], [], []⟩ =
      some (OutcomeA.done "Invalid action step: Missing function or input fields"
        ⟨[assistantMsg (stringifyStep
            (StepOutput.mk (some "action") (some "c") none none none)),
          assistantMsg (stringifyStep (createErrorStep
            "Invalid action step: Missing function or input fields"))],
          [StepOutput.mk (some "action") (some "c") none none none,
            createErrorStep "Invalid action step: Missing function or input fields",
            createOutputStep "Invalid action step: Missing function or input fields"],
          [], []⟩ [])) :=
  ⟨rfl, Or.inl rfl, by decide,
    invalid_action_terminates none false "k"
      (StepOutput.mk (some "action") (some "c") none none none) []
      ⟨[], [], [], []⟩ rfl (Or.inl rfl) (by decide)⟩

/-- C7 (corrected, amended part): in revision B a parsed demand step is
terminal: the run returns the step's content (verbatim when non-empty,
with a fixed fallback when empty), invokes no tool and issues no further
model request. -/
theorem demand_terminates_revB (tools : Option ToolMap) (hasObs : Bool)
    (d : StepOutput) (rest : List ModelResp) (st : LState)
    (hstep : d.step = some "demand")
    (habs : d.function = none ∨ d.input = none) :
    runLoopB tools hasObs (ModelResp.content (Except.ok d) :: rest) st =
      some (DoneB.mk (strOrDefault d.content "Tool required but not available")
        ⟨st.msgs ++ [assistantMsg (stringifyStep d)],
          st.steps ++ [d] ++
            [createOutputStep
              (strOrDefault d.content "Tool required but not available")],
          st.tcs, obsPush hasObs st.ocs d⟩ rest) ∧
    (∀ c, d.content = some c → ¬ c = "" →
      strOrDefault d.content "Tool required but not available" = c) := by
  constructor
  · obtain ⟨s0, c0, f0, i0, b0⟩ := d
    have hs0 : s0 = some "demand" := hstep
    subst hs0
    rcases habs with hf | hi
    · have hf0 : f0 = none := hf
      subst hf0
      rfl
    · have hi0 : i0 = none := hi
      subst hi0
      cases f0 with
      | none => rfl
      | some fn =>
        have hpass := parseB_pass_of_input_none
          (⟨some "demand", c0, some fn, none, b0⟩ : StepOutput) rfl
        simp only [runLoopB, iterB, generateContentB, hpass]
        rfl
  · intro c hc hne
    rw [hc]
    exact jsOr_of_ne c _ hne

/-- C7 witness: the theorem at a concrete demand step with non-empty
content. -/
theorem demand_terminates_revB_witness :
    (StepOutput.mk (some "demand") (some "need the search tool") none none
        none).step = some "demand" ∧
    ((StepOutput.mk (some "demand") (some "need the search tool") none none
        none).function = none ∨
      (StepOutput.mk (some "demand") (some "need the search tool") none none
        none).input = none) ∧
    runLoopB none false
        [ModelResp.content (Except.ok (StepOutput.mk (some "demand")
          (some "need the search tool") none none none))]
        ⟨[], [], [], []⟩ =
      some (DoneB.mk "need the search tool"
        ⟨[assistantMsg (stringifyStep (StepOutput.mk (some "demand")
            (some "need the search tool") none none none))],
          [StepOutput.mk (some "demand") (some "need the search tool") none
            none none,
            createOutputStep "need the search tool"],
          [], []⟩ []) ∧
    strOrDefault (some "need the search tool")
        "Tool required but not available" = "need the search tool" :=
  ⟨rfl, Or.inl rfl,
    (demand_terminates_revB none false
      (StepOutput.mk (some "demand") (some "need the search tool") none none
        none) [] ⟨[], [], [], []⟩ rfl (Or.inl rfl)).1,
    (demand_terminates_revB none false
      (StepOutput.mk (some "demand") (some "need the search tool") none none
        none) [] ⟨[], [], [], []⟩ rfl (Or.inl rfl)).2
      "need the search tool" rfl (by decide)⟩

/-- C7 counterexample: revision A has no demand case; a demand step falls
into the default branch, the loop issues a further model request and the
final result comes from the later output step, not from the demand step's
content. -/
theorem demand_not_terminal_revA :
    resultOfA (runA "k" none false "hi"
      [demandResp "need X", outputResp "done"] (initSess "S" [])) =
      some "done" ∧
    some "done" ≠ some "need X" ∧
    remainingOfA (runA "k" none false "hi"
      [demandResp "need X", outputResp "done"] (initSess "S" [])) =
      some [] :=
  ⟨rfl, by decide, rfl⟩

/-- C10 (confirmed, revision B): a dispatched tool's returned value is
discarded — two tools registered under the same name with different return
values that both succeed yield the identical fixed success record and the
identical observe message; the tool's payload never reaches the model or
the caller. -/
theorem tool_result_discarded_revB (t1 t2 : Tool) (name : String)
    (inp : ToolInput) (r1 r2 : StepOutput)
    (h1 : t1.function inp = Except.ok r1)
    (h2 : t2.function inp = Except.ok r2) :
    executeToolB (some [(name, t1)]) name inp =
      (successStep name inp, [(name, inp)]) ∧
    executeToolB (some [(name, t2)]) name inp =
      (successStep name inp, [(name, inp)]) ∧
    observeMsg (executeToolB (some [(name, t1)]) name inp).1 =
      observeMsg (executeToolB (some [(name, t2)]) name inp).1 := by
  have e1 : executeToolB (some [(name, t1)]) name inp =
      (successStep name inp, [(name, inp)]) := by
    simp [executeToolB, lookupTool, h1]
  have e2 : executeToolB (some [(name, t2)]) name inp =
      (successStep name inp, [(name, inp)]) := by
    simp [executeToolB, lookupTool, h2]
  exact ⟨e1, e2, by rw [e1, e2]⟩

/-- C10 witness: two concrete tools succeeding with different payloads
produce the same success record and observe message. -/
theorem tool_result_discarded_revB_witness :
    okTool.function sampleInput = Except.ok (createOutputStep "ok") ∧
    okTool2.function sampleInput =
      Except.ok (createOutputStep "a different payload") ∧
    createOutputStep "ok" ≠ createOutputStep "a different payload" ∧
    executeToolB (some [("echo", okTool)]) "echo" sampleInput =
      (successStep "echo" sampleInput, [("echo", sampleInput)]) ∧
    executeToolB (some [("echo", okTool2)]) "echo" sampleInput =
      (successStep "echo" sampleInput, [("echo", sampleInput)]) ∧
    observeMsg (executeToolB (some [("echo", okTool)]) "echo" sampleInput).1 =
      observeMsg (executeToolB (some [("echo", okTool2)]) "echo" sampleInput).1 := by
  have h := tool_result_discarded_revB okTool okTool2 "echo" sampleInput
    (createOutputStep "ok") (createOutputStep "a different payload") rfl rfl
  exact ⟨rfl, rfl, by decide, h.1, h.2.1, h.2.2⟩

/-- C3 (corrected, amended part — revision B): a parsed action step naming
a registered tool with input present invokes the tool exactly once with
that input; on success exactly one synthetic observe user message is
appended and the loop continues on the remaining script (one further model
request); on failure — unresolved name or tool throw — the run terminates
at once with the tool's error content as result, the remaining script
untouched. -/
theorem action_dispatch_revB (ts : ToolMap) (hasObs : Bool) (fn : String)
    (inp : ToolInput) (c : Option String) (b : Option Bool)
    (rest : List ModelResp) (st : LState) (hfn : (fn == "") = false) :
    (∀ t r, lookupTool ts fn = some t → t.function inp = Except.ok r →
      runLoopB (some ts) hasObs
          (ModelResp.content (Except.ok
            (StepOutput.mk (some "action") c (some fn) (some inp) b)) :: rest) st =
        runLoopB (some ts) hasObs rest
          ⟨st.msgs ++
              [assistantMsg (stringifyStep
                (StepOutput.mk (some "action") c (some fn) (some inp) b))] ++
              [userMsg (observeMsg (successStep fn inp))],
            st.steps ++
              [StepOutput.mk (some "action") c (some fn) (some inp) b] ++
              [successStep fn inp],
            st.tcs ++ [(fn, inp)],
            obsPush hasObs st.ocs
              (StepOutput.mk (some "action") c (some fn) (some inp) b)⟩) ∧
    (∀ t em, lookupTool ts fn = some t → t.function inp = Except.error em →
      ∃ out, runLoopB (some ts) hasObs
          (ModelResp.content (Except.ok
            (StepOutput.mk (some "action") c (some fn) (some inp) b)) :: rest) st =
          some out ∧
        out.remaining = rest ∧
        out.st.tcs = st.tcs ++ [(fn, inp)] ∧
        out.result = "Tool execution error: " ++ fn ++ " failed - " ++
          jsOr em "Unknown tool error") ∧
    (lookupTool ts fn = none →
      ∃ out, runLoopB (some ts) hasObs
          (ModelResp.content (Except.ok
            (StepOutput.mk (some "action") c (some fn) (some inp) b)) :: rest) st =
          some out ∧
        out.remaining = rest ∧
        out.st.tcs = st.tcs ∧
        out.result = "Tool not found: " ++ fn) := by
  have hpass := parseB_pass_of_action
    (StepOutput.mk (some "action") c (some fn) (some inp) b) rfl
  refine ⟨?_, ?_, ?_⟩
  · intro t r hl ht
    have hex : executeToolB (some ts) fn inp =
        (successStep fn inp, [(fn, inp)]) := by
      simp [executeToolB, hl, ht]
    simp only [runLoopB, iterB, generateContentB, hpass, iterBodyB, hfn, hex]
    rfl
  · intro t em hl ht
    have hex : executeToolB (some ts) fn inp =
        (createErrorStep ("Tool execution error: " ++ fn ++ " failed - " ++
          jsOr em "Unknown tool error"), [(fn, inp)]) := by
      simp [executeToolB, hl, ht]
    have hne : ¬("Tool execution error: " ++ fn ++ " failed - " ++
        jsOr em "Unknown tool error") = "" :=
      append_ne_empty_left _ _
        (append_ne_empty_left _ _ (append_ne_empty_left _ _ (by decide)))
    simp only [runLoopB, iterB, generateContentB, hpass, iterBodyB, hfn, hex]
    refine ⟨_, rfl, rfl, ?_, ?_⟩
    · rfl
    · exact jsOr_of_ne _ "Tool execution failed" hne
  · intro hl
    have hex : executeToolB (some ts) fn inp =
        (createErrorStep ("Tool not found: " ++ fn), []) := by
      simp [executeToolB, hl]
    have hne : ¬("Tool not found: " ++ fn) = "" :=
      append_ne_empty_left _ _ (by decide)
    simp only [runLoopB, iterB, generateContentB, hpass, iterBodyB, hfn, hex]
    refine ⟨_, rfl, rfl, ?_, ?_⟩
    · simp
    · exact jsOr_of_ne _ "Tool execution failed" hne

/-- C3 witness: the three branches at a concrete registry and inputs. -/
theorem action_dispatch_revB_witness :
    (("echo" == "") = false) ∧
    lookupTool [("echo", okTool)] "echo" = some okTool ∧
    okTool.function sampleInput = Except.ok (createOutputStep "ok") ∧
    runLoopB (some [("echo", okTool)]) false
        [ModelResp.content (Except.ok (StepOutput.mk (some "action")
          (some "use the tool") (some "echo") (some sampleInput) none))]
        ⟨[], [], [], []⟩ =
      runLoopB (some [("echo", okTool)]) false []
        ⟨[assistantMsg (stringifyStep (StepOutput.mk (some "action")
            (some "use the tool") (some "echo") (some sampleInput) none)),
            userMsg (observeMsg (successStep "echo" sampleInput))],
          [StepOutput.mk (some "action") (some "use the tool") (some "echo")
            (some sampleInput) none,
            successStep "echo" sampleInput],
          [("echo", sampleInput)],
          []⟩ :=
  ⟨by decide, rfl, rfl,
    (action_dispatch_revB [("echo", okTool)] false "echo" sampleInput
      (some "use the tool") none [] ⟨[], [], [], []⟩ (by decide)).1
      okTool (createOutputStep "ok") rfl rfl⟩

/-- C3 counterexample: in revision A a failed dispatch (unresolved tool
name) does not terminate the run — the error step is embedded in an
observe message, a further model request is issued, no tool is invoked,
and the result comes from the later output step. -/
theorem action_failure_continues_revA :
    resultOfA (runA "key" (some [("echo", okTool)]) false "hi"
      [actionResp "mystery" sampleInput, outputResp "done"]
      (initSess "S" [])) = some "done" ∧
    some "done" ≠ some "Tool not found: mystery" ∧
    (stOfA (runA "key" (some [("echo", okTool)]) false "hi"
      [actionResp "mystery" sampleInput, outputResp "done"]
      (initSess "S" []))).map (fun st => st.tcs) = some [] ∧
    remainingOfA (runA "key" (some [("echo", okTool)]) false "hi"
      [actionResp "mystery" sampleInput, outputResp "done"]
      (initSess "S" [])) = some [] :=
  ⟨rfl, by decide, rfl, rfl⟩

/-- C2 (corrected, amended part — revision B): each failure kind other
than the missing credential — transport error, empty response, parse
error, protocol violation, tool not found, tool-raised exception — is
converted into terminal steps and the run resolves with a result/steps
pair (the loop's outcome type carries no thrown failure). -/
theorem failures_resolve_revB (tools : Option ToolMap) (hasObs : Bool) :
    (∀ m j rest st, ∃ out,
      runLoopB tools hasObs (ModelResp.transportErr m j :: rest) st = some out ∧
      out.remaining = rest ∧
      out.result = "API error: " ++ jsOr m "Unknown API error") ∧
    (∀ rest st, ∃ out,
      runLoopB tools hasObs (ModelResp.noContent :: rest) st = some out ∧
      out.remaining = rest ∧
      out.result = "No response content received from API") ∧
    (∀ m rest st, ∃ out,
      runLoopB tools hasObs
          (ModelResp.content (Except.error m) :: rest) st = some out ∧
      out.remaining = rest ∧
      out.result = "JSON parsing error: " ++ jsOr m "Invalid response format") ∧
    (∀ p rest st, truthyStr p.function = true → p.input.isSome = true →
      p.step ≠ some "action" → ∃ out,
      runLoopB tools hasObs
          (ModelResp.content (Except.ok p) :: rest) st = some out ∧
      out.remaining = rest ∧
      out.result = "Invalid step name: Tool/function calls must use 'action' step") ∧
    (∀ ts fn inp c b rest st, (fn == "") = false → lookupTool ts fn = none →
      ∃ out, runLoopB (some ts) hasObs
          (ModelResp.content (Except.ok (StepOutput.mk (some "action") c
            (some fn) (some inp) b)) :: rest) st = some out ∧
        out.remaining = rest ∧
        out.result = "Tool not found: " ++ fn) ∧
    (∀ ts t fn inp em c b rest st, (fn == "") = false →
      lookupTool ts fn = some t → t.function inp = Except.error em →
      ∃ out, runLoopB (some ts) hasObs
          (ModelResp.content (Except.ok (StepOutput.mk (some "action") c
            (some fn) (some inp) b)) :: rest) st = some out ∧
        out.remaining = rest ∧
        out.result = "Tool execution error: " ++ fn ++ " failed - " ++
          jsOr em "Unknown tool error") := by
  refine ⟨?_, ?_, ?_, ?_, ?_, ?_⟩
  · intro m j rest st
    have hne : ¬("API error: " ++ jsOr m "Unknown API error") = "" :=
      append_ne_empty_left _ _ (by decide)
    refine ⟨_, rfl, rfl, ?_⟩
    exact jsOr_of_ne _ "An error occurred" hne
  · intro rest st
    refine ⟨_, rfl, rfl, ?_⟩
    rfl
  · intro m rest st
    have hne : ¬("JSON parsing error: " ++ jsOr m "Invalid response format") = "" :=
      append_ne_empty_left _ _ (by decide)
    refine ⟨_, rfl, rfl, ?_⟩
    exact jsOr_of_ne _ "An error occurred" hne
  · intro p rest st h1 h2 h3
    have h3' : (p.step == some "action") = false := beq_eq_false_iff_ne.mpr h3
    have hrej : parseModelOutputB (Except.ok p) =
        createErrorStep "Invalid step name: Tool/function calls must use 'action' step" := by
      simp [parseModelOutputB, h1, h2, h3']
    simp only [runLoopB, iterB, generateContentB, hrej]
    refine ⟨_, rfl, rfl, ?_⟩
    rfl
  · intro ts fn inp c b rest st hfn hl
    have hpass := parseB_pass_of_action
      (StepOutput.mk (some "action") c (some fn) (some inp) b) rfl
    have hex : executeToolB (some ts) fn inp =
        (createErrorStep ("Tool not found: " ++ fn), []) := by
      simp [executeToolB, hl]
    have hne : ¬("Tool not found: " ++ fn) = "" :=
      append_ne_empty_left _ _ (by decide)
    simp only [runLoopB, iterB, generateContentB, hpass, iterBodyB, hfn, hex]
    refine ⟨_, rfl, rfl, ?_⟩
    exact jsOr_of_ne _ "Tool execution failed" hne
  · intro ts t fn inp em c b rest st hfn hl ht
    have hpass := parseB_pass_of_action
      (StepOutput.mk (some "action") c (some fn) (some inp) b) rfl
    have hex : executeToolB (some ts) fn inp =
        (createErrorStep ("Tool execution error: " ++ fn ++ " failed - " ++
          jsOr em "Unknown tool error"), [(fn, inp)]) := by
      simp [executeToolB, hl, ht]
    have hne : ¬("Tool execution error: " ++ fn ++ " failed - " ++
        jsOr em "Unknown tool error") = "" :=
      append_ne_empty_left _ _
        (append_ne_empty_left _ _ (append_ne_empty_left _ _ (by decide)))
    simp only [runLoopB, iterB, generateContentB, hpass, iterBodyB, hfn, hex]
    refine ⟨_, rfl, rfl, ?_⟩
    exact jsOr_of_ne _ "Tool execution failed" hne

/-- C2 witness: a throwing tool in revision B still yields the terminal
result "Tool execution error: boom failed - kaboom". -/
theorem failures_resolve_revB_witness :
    (("boom" == "") = false) ∧
    lookupTool [("boom", boomTool)] "boom" = some boomTool ∧
    boomTool.function sampleInput = Except.error "kaboom" ∧
    (∃ out, runLoopB (some [("boom", boomTool)]) false
        [ModelResp.content (Except.ok (StepOutput.mk (some "action")
          (some "use the tool") (some "boom") (some sampleInput) none))]
        ⟨[], [], [], []⟩ = some out ∧
      out.remaining = [] ∧
      out.result = "Tool execution error: " ++ "boom" ++ " failed - " ++
        jsOr "kaboom" "Unknown tool error") :=
  ⟨by decide, rfl, rfl,
    (failures_resolve_revB (some [("boom", boomTool)]) false).2.2.2.2.2
      [("boom", boomTool)] boomTool "boom" sampleInput "kaboom"
      (some "use the tool") none [] ⟨[], [], [], []⟩ (by decide) rfl rfl⟩

/-- C2 counterexample: in revision A a thrown tool failure propagates out
of run — the promise rejects with the tool's exception instead of
resolving with a result/steps pair. -/
theorem tool_throw_rejects_revA :
    thrownOfA (runA "key" (some [("boom", boomTool)]) false "hi"
      [actionResp "boom" sampleInput] (initSess "S" [])) = some "kaboom" ∧
    resultOfA (runA "key" (some [("boom", boomTool)]) false "hi"
      [actionResp "boom" sampleInput] (initSess "S" [])) = none :=
  ⟨rfl, rfl⟩

/-- C6 (corrected, amended part): with an observer supplied, revision B's
loop invokes it exactly once per consumed model turn — on the parsed step,
before acting on the branch decision — so the observer trace is exactly
the parsed steps of the consumed script prefix, in order. -/
theorem observer_once_per_model_turn (tools : Option ToolMap) (q : String)
    (script : List ModelResp) (s : Sess) (d : DoneB)
    (h : runLoopB tools true script
      ⟨s.messages ++ [userMsg q], [], [], []⟩ = some d) :
    ∃ k, d.remaining = script.drop k ∧
      d.st.ocs = (script.take k).map generateContentB := by
  have hx := runLoopB_obs tools script ⟨s.messages ++ [userMsg q], [], [], []⟩ d h
  simpa using hx

/-- C6 witness: the accounting at a concrete one-turn run. -/
theorem observer_once_per_model_turn_witness :
    runLoopB none true [outputResp "done"]
        ⟨(initSess "S" []).messages ++ [userMsg "hi"], [], [], []⟩ =
      some (DoneB.mk "done"
        ⟨[systemMsg "S", userMsg "hi",
            assistantMsg (stringifyStep
              (StepOutput.mk (some "output") (some "done") none none none))],
          [StepOutput.mk (some "output") (some "done") none none none],
          [],
          [StepOutput.mk (some "output") (some "done") none none none]⟩ []) ∧
    (∃ k, (DoneB.mk "done"
        ⟨[systemMsg "S", userMsg "hi",
            assistantMsg (stringifyStep
              (StepOutput.mk (some "output") (some "done") none none none))],
          [StepOutput.mk (some "output") (some "done") none none none],
          [],
          [StepOutput.mk (some "output") (some "done") none none none]⟩
        []).remaining = [outputResp "done"].drop k ∧
      (DoneB.mk "done"
        ⟨[systemMsg "S", userMsg "hi",
            assistantMsg (stringifyStep
              (StepOutput.mk (some "output") (some "done") none none none))],
          [StepOutput.mk (some "output") (some "done") none none none],
          [],
          [StepOutput.mk (some "output") (some "done") none none none]⟩
        []).st.ocs = ([outputResp "done"].take k).map generateContentB) :=
  ⟨rfl, observer_once_per_model_turn none "hi" [outputResp "done"]
    (initSess "S" []) _ rfl⟩

/-- C6 counterexample: a run emitting a tool-outcome step has three steps
in its history but only two observer invocations — the observer is not
invoked once per emitted step. -/
theorem observer_skips_tool_outcome :
    (stOfB (runLoopB (some [("echo", okTool)]) true
      [actionResp "echo" sampleInput, outputResp "done"]
      ⟨[systemMsg "S", userMsg "hi"], [], [], []⟩)).map
        (fun st => (st.steps.length, st.ocs.length)) = some (3, 2) ∧
    (3 : Nat) ≠ 2 :=
  ⟨rfl, by decide⟩

end Flowlynk
